import Mathlib

/-!
Verification of the Nintendo AST Creator (`src/main.cpp`) against its
specification.  The C++ program converts a 16-bit PCM WAV file into a
Nintendo AST container.  This file gives a shallow embedding of the
WAV-reading and AST-encoding core:

* machine integers are modelled as `Nat` with explicit `% 2^32` (resp.
  `% 2^16`, `% 256`) at the points where the C++ unsigned arithmetic can
  wrap;
* file contents and emitted output are `List Nat` of byte values;
* the fallible routines (`getWAVData`, `assignValue`, `writeAST`) return
  `Except Err _`, one error constructor per `printf`+`return 1` site of
  the source;
* C `for` loops whose index advances by a variable stride are embedded as
  fuel-indexed structural recursions (fuel chosen ≥ the number of
  iterations the loop can perform), so that every definition computes by
  kernel reduction.

Everything is translated from `src/main.cpp`; the only definitions taken
from the specification's words instead are the `spec…` definitions used
for the refinement claim about the audio-body layout.
-/

namespace ASTCreate

/-- Two bytes of a 16-bit value as written by `fwrite` on a little-endian
machine (low byte first). -/
def le16 (w : Nat) : List Nat := [w % 256, w / 256 % 256]

/-- Four bytes of a 32-bit value as written by `fwrite` on a little-endian
machine (low byte first). -/
def le32 (w : Nat) : List Nat :=
  [w % 256, w / 2 ^ 8 % 256, w / 2 ^ 16 % 256, w / 2 ^ 24 % 256]

/-- `_byteswap_ushort`: swap the two bytes of a 16-bit value. -/
def bswap16 (v : Nat) : Nat := v % 256 * 256 + v / 256 % 256

/-- `_byteswap_ulong`: reverse the four bytes of a 32-bit value. -/
def bswap32 (v : Nat) : Nat :=
  v % 256 * 2 ^ 24 + v / 2 ^ 8 % 256 * 2 ^ 16 + v / 2 ^ 16 % 256 * 2 ^ 8 + v / 2 ^ 24 % 256

/-- Big-endian byte encoding of a 16-bit value (specification language:
"byte-swapped to big-endian"). -/
def be16 (v : Nat) : List Nat := [v / 256 % 256, v % 256]

/-- Big-endian byte encoding of a 32-bit value. -/
def be32 (v : Nat) : List Nat :=
  [v / 2 ^ 24 % 256, v / 2 ^ 16 % 256, v / 2 ^ 8 % 256, v % 256]

/-- Decode four bytes read big-endian. -/
def deBE32 (l : List Nat) : Nat :=
  ((l.getD 0 0 * 256 + l.getD 1 0) * 256 + l.getD 2 0) * 256 + l.getD 3 0

/-- `fread` of a 2-byte little-endian integer at offset `p` of file `f`.
A file is a list of bytes; `% 256` records that each cell is one byte. -/
def rd16 (f : List Nat) (p : Nat) : Nat := f.getD p 0 % 256 + f.getD (p + 1) 0 % 256 * 256

/-- `fread` of a 4-byte little-endian integer at offset `p` of file `f`. -/
def rd32 (f : List Nat) (p : Nat) : Nat :=
  f.getD p 0 % 256 + f.getD (p + 1) 0 % 256 * 256 +
    f.getD (p + 2) 0 % 256 * 2 ^ 16 + f.getD (p + 3) 0 % 256 * 2 ^ 24

/-- The mutable fields of class `ASTInfo` that the codec core reads and
writes (the output filename, a string, is out-of-scope collaborator
state).  All integer fields are unsigned (`unsigned int` / `unsigned
short`), kept as `Nat` below `2^32` (resp. `2^16`) by construction. -/
structure ASTInfo where
  customSampleRate : Nat
  sampleRate : Nat
  numChannels : Nat
  numSamples : Nat
  isLooped : Nat
  loopStart : Nat
  wavSize : Nat
deriving DecidableEq, Repr

/-- The block geometry derived by `writeAST` immediately before writing
(`excBlkSz`, `numBlocks`, `padding`, `astSize` in the source). -/
structure Layout where
  excBlkSz : Nat
  numBlocks : Nat
  padding : Nat
  astSize : Nat
deriving DecidableEq, Repr

/-- One constructor per fatal `printf`+`return 1` site of the core
(the source itself only returns the single exit code 1).
`InvalidChannelCount` is the error the specification assigns to the
channel-count validation; the source prints that error text but is
missing the `return 1`, so no code path below ever produces it. -/
inductive Err where
  | InvalidContainer
  | MissingFmtChunk
  | InvalidChannelCount
  | UnsupportedBitDepth
  | MissingDataChunk
  | ZeroEndSample
  | ZeroMicrosecondEnd
  | EmptyAudio
  | ZeroSampleRate
deriving DecidableEq, Repr

/-- `"RIFF"` -/
def strRIFF : List Nat := [82, 73, 70, 70]
/-- `"WAVE"` -/
def strWAVE : List Nat := [87, 65, 86, 69]
/-- `"fmt "` -/
def strFMT : List Nat := [102, 109, 116, 32]
/-- `"data"` -/
def strDATA : List Nat := [100, 97, 116, 97]

/-- The sub-chunk scan loops of `getWAVData`: starting at offset `p`, read a
4-byte tag; if it equals `tag` stop (returning the position just after the
tag, where the C++ file cursor is left); otherwise read a 4-byte size and
skip that many bytes.  `fread` of the tag or the size fails once fewer than
4 bytes remain, ending the scan unsuccessfully.  The loop advances by at
least 8 bytes per iteration, so fuel `f.length` (supplied at every call
site) always exceeds the iteration count and the fuel case never fires. -/
def findChunk (f tag : List Nat) : Nat → Nat → Option Nat
  | 0, _ => none
  | fuel + 1, p =>
    if p + 4 ≤ f.length then
      if (f.drop p).take 4 = tag then some (p + 4)
      else if p + 8 ≤ f.length then findChunk f tag fuel (p + 8 + rd32 f (p + 4))
      else none
    else none

/-- PCM samples as read by `fread` into a `uint16_t` buffer: consecutive
byte pairs, little-endian (a trailing odd byte is never completed into a
sample). -/
def toSamples : List Nat → List Nat
  | a :: b :: rest => (a % 256 + b % 256 * 256) :: toSamples rest
  | _ => []

/-- `ASTInfo::getWAVData`: validate the RIFF/WAVE header, locate `fmt `,
read the format fields, locate `data`, read its size, and derive the
sample count.  Faithful quirks of the source kept here:

* a format tag other than 1/0xFFFE only prints a warning (no error);
* the channel-count check (`numChannels > 16 || numChannels < 1`) prints
  its error text but is **missing `return 1`**, so it does not abort —
  no `Err.InvalidChannelCount` is produced;
* `numSamples = wavSize / (numChannels * 2)` uses truncating unsigned
  division (for `numChannels = 0` the C++ divides by zero, which crashes;
  Lean's `Nat` division yields 0 there);
* reads past the end of the file leave the destination unchanged in C++
  (`fread` shortfall); the model reads 0 bytes there via `getD _ 0`.

On success the returned state carries the class-field defaults
`isLooped = 65535`, `loopStart = 0`, and the PCM sample stream is the
remainder of the file after the `data` size field (the C++ file cursor
position from which `printAudio` later `fread`s). -/
def getWAVData (f : List Nat) : Except Err (ASTInfo × List Nat) :=
  if ¬(f.take 4 = strRIFF ∧ (f.drop 8).take 4 = strWAVE) then .error .InvalidContainer
  else
    match findChunk f strFMT f.length 12 with
    | none => .error .MissingFmtChunk
    | some q =>
      -- cursor at q: skip 4 (chunk size), read PCM tag (warning only),
      -- channels at q+6, sample rate at q+8, skip 6, bits at q+18
      let numChannels := rd16 f (q + 6)
      let sampleRate := rd32 f (q + 8)
      let bitrate := rd16 f (q + 18)
      if bitrate ≠ 16 then .error .UnsupportedBitDepth
      else
        match findChunk f strDATA f.length 12 with
        | none => .error .MissingDataChunk
        | some r =>
          let wavSize := rd32 f r
          let numSamples := wavSize / (numChannels * 2)
          .ok (⟨sampleRate, sampleRate, numChannels, numSamples, 65535, 0, wavSize⟩,
               toSamples (f.drop (r + 4)))

/-- The pre-parsed command-line directives the collaborator hands to the
core (`argv` pairs dispatched by `ASTInfo::assignValue` on the option
letter).  Numeric payloads are carried as the already-converted unsigned
values:

* `s v` — `-s`, loop start sample, `v` the `atoi` result converted to
  `unsigned int`;
* `t v` — `-t`, loop start from microseconds; `v` abstracts the rounded
  value `(int)(time / 1e6 * sampleRate + 0.5)` converted to unsigned;
* `e v` — `-e`, end sample, `v` the `atoi` result converted to `uint64_t`
  (so `v < 2^64`, and for a non-negative `atoi` result `v < 2^31`);
* `f t v` — `-f`, end from microseconds: `t` the `atol` time, `v`
  abstracts `(uint64_t)(t / 1e6 * sampleRate + 0.5)` (reachably ≥ 2^32,
  e.g. `t = 2000000` at `sampleRate = 2^31` gives exactly `2^32`);
* `r v` — `-r`, custom sample rate (`atoi` converted to unsigned);
* `o` — output-path override (collaborator-side filename state, no core
  effect modelled); `n` — disable looping; `h` — help. -/
inductive Arg where
  | s (v : Nat)
  | t (v : Nat)
  | e (v : Nat)
  | f (time v : Nat)
  | r (v : Nat)
  | o
  | n
  | h
deriving DecidableEq, Repr

/-- `ASTInfo::assignValue`: apply one directive to the encoder state.
The `-e`/`-f` comparison `numSamples < (unsigned int) samples` truncates
the 64-bit `samples` to 32 bits, modelled by `% 2^32`; when the
comparison clamps, the local `samples` variable is overwritten and the
state is unchanged, otherwise `numSamples` receives the truncated value.
Both paths then recompute `wavSize = numSamples * 2 * numChannels` in
unsigned 32-bit arithmetic. -/
def assignValue (a : Arg) (st : ASTInfo) : Except Err ASTInfo :=
  match a with
  | .h => .ok st
  | .n => .ok { st with isLooped := 0 }
  | .o => .ok st
  | .s v => .ok { st with loopStart := v % 2 ^ 32 }
  | .t v => .ok { st with loopStart := v % 2 ^ 32 }
  | .e v =>
    if v = 0 then .error .ZeroEndSample
    else
      let st1 := if st.numSamples < v % 2 ^ 32 then st
                 else { st with numSamples := v % 2 ^ 32 }
      .ok { st1 with wavSize := st1.numSamples * 2 * st1.numChannels % 2 ^ 32 }
  | .f time v =>
    if time = 0 then .error .ZeroMicrosecondEnd
    else if v = 0 then .error .ZeroMicrosecondEnd
    else
      let st1 := if st.numSamples < v % 2 ^ 32 then st
                 else { st with numSamples := v % 2 ^ 32 }
      .ok { st1 with wavSize := st1.numSamples * 2 * st1.numChannels % 2 ^ 32 }
  | .r v =>
    let csr := v % 2 ^ 32
    .ok { st with customSampleRate := if csr = 0 then st.sampleRate else csr }

/-- The argument loop of `ASTInfo::grabInfo`: directives are applied in
order and the first failing one aborts the whole run (before `writeAST`
is ever reached). -/
def processArgs : List Arg → ASTInfo → Except Err ASTInfo
  | [], st => .ok st
  | a :: rest, st =>
    match assignValue a st with
    | .error e => .error e
    | .ok st1 => processArgs rest st1

/-- Default AST block size: 10080 bytes per channel (field initializer
`blockSize = 10080`, never modified). -/
def blockSize : Nat := 10080

/-- `this->excBlkSz = (this->numSamples * 2) % this->blockSize;`
(unsigned 32-bit product). -/
def computeExc0 (st : ASTInfo) : Nat := st.numSamples * 2 % 2 ^ 32 % blockSize

/-- `numBlocks = (numSamples * 2) / blockSize`, incremented when the
remainder is nonzero. -/
def computeNumBlocks (st : ASTInfo) : Nat :=
  if computeExc0 st ≠ 0 then st.numSamples * 2 % 2 ^ 32 / blockSize + 1
  else st.numSamples * 2 % 2 ^ 32 / blockSize

/-- `padding = 32 - (excBlkSz % 32);` then `if (padding == 32) padding = 0;` -/
def computePadding (st : ASTInfo) : Nat :=
  if 32 - computeExc0 st % 32 = 32 then 0 else 32 - computeExc0 st % 32

/-- `if (excBlkSz == 0) excBlkSz = blockSize;` (applied after the
`numBlocks == 0` check; pure value, so computed here). -/
def computeExc (st : ASTInfo) : Nat :=
  if computeExc0 st = 0 then blockSize else computeExc0 st

/-- `astSize = wavSize + numBlocks*32 + padding*numChannels` in unsigned
32-bit arithmetic. -/
def computeAstSize (st : ASTInfo) : Nat :=
  (st.wavSize + computeNumBlocks st * 32 + computePadding st * st.numChannels) % 2 ^ 32

/-- The four derived quantities of `writeAST`, with the final-block size
already compensated to `blockSize` when the remainder was zero. -/
def computeLayout (st : ASTInfo) : Layout :=
  ⟨computeExc st, computeNumBlocks st, computePadding st, computeAstSize st⟩

/-- `if (loopStart >= numSamples) loopStart = 0;` -/
def fixLoopStart (st : ASTInfo) : ASTInfo :=
  if st.numSamples ≤ st.loopStart then { st with loopStart := 0 } else st

/-- `if (isLooped == 0) { ... loopStart = 0; }` (performed just before the
header is written). -/
def applyLoopFlag (st : ASTInfo) : ASTInfo :=
  if st.isLooped = 0 then { st with loopStart := 0 } else st

/-- `"STRM"` -/
def strSTRM : List Nat := [83, 84, 82, 77]

/-- `ASTInfo::printHeader`: the 64 header bytes.  Multi-byte fields are
`_byteswap`ed then written little-endian (hence big-endian on disk),
except the codec constant `268435712`, the loop flag `isLooped`, the
reserved word, and the volume word `127`, which the source writes
unswapped. -/
def printHeader (st : ASTInfo) (L : Layout) : List Nat :=
  strSTRM ++
  le32 (bswap32 L.astSize) ++
  le32 268435712 ++
  le16 (bswap16 st.numChannels) ++
  le16 st.isLooped ++
  le32 (bswap32 st.customSampleRate) ++
  le32 (bswap32 st.numSamples) ++
  le32 (bswap32 st.loopStart) ++
  le32 (bswap32 st.numSamples) ++
  le32 (bswap32 (if L.numBlocks = 1 then L.excBlkSz + L.padding else blockSize)) ++
  le32 0 ++
  le32 127 ++
  (List.range 5).flatMap (fun _ => le32 0)

/-- The strided inner loop `for (z = y; z < len2; z += step)` of
`printAudio`, returning the visited indices.  With `step = 0` the C++
loop would never terminate (unreachable: `step` is the channel count,
which the iteration itself requires ≥ 1); the fuel — always passed as
`len2`, an upper bound on the iteration count for `step ≥ 1` — makes the
recursion structural and kernel-computable. -/
def strideIdx (len2 step : Nat) : Nat → Nat → List Nat
  | 0, _ => []
  | fuel + 1, z => if z < len2 then z :: strideIdx len2 step fuel (z + step) else []

/-- The block loop of `ASTInfo::printAudio`, one recursive step per
iteration `x` (fuel = remaining iterations, `numBlocks` at the top call).
Per block: tag `"BLCK"`, byte-swapped 4-byte payload size (payload
`excBlkSz + padding` on the last block, `blockSize` otherwise), 24 zero
bytes, then one block of source samples (`length` bytes, i.e. `len2`
16-bit samples) byte-swapped in the buffer and written per channel at
stride `numChannels`; on the last block each channel is followed by the
`for (z = 0; z < padding; z += 2)` zero-pad loop.  A `fread` shortfall
leaves C++ buffer bytes unspecified (stale or `memset` zeros); the model
reads 0 via `getD _ 0`. -/
def printAudioGo (nc numBlocks excBlkSz padding : Nat) : Nat → Nat → List Nat → List Nat
  | 0, _, _ => []
  | fuel + 1, x, rem =>
    if x < numBlocks then
      let isLast := x = numBlocks - 1
      let len2 := (if isLast then excBlkSz * nc else blockSize * nc) / 2
      let buf := (rem.take len2).map bswap16
      [66, 76, 67, 75] ++
      le32 (bswap32 (if isLast then excBlkSz + padding else blockSize)) ++
      (List.range 6).flatMap (fun _ => le32 0) ++
      (List.range nc).flatMap (fun y =>
        (strideIdx len2 nc len2 y).flatMap (fun z => le16 (buf.getD z 0)) ++
        (if isLast then (strideIdx padding 2 padding 0).flatMap (fun _ => le16 0) else [])) ++
      printAudioGo nc numBlocks excBlkSz padding fuel (x + 1) (rem.drop len2)
    else []

/-- `ASTInfo::printAudio`: the whole audio body, reading the sample
stream `src` sequentially from the position `getWAVData` left it at. -/
def printAudio (nc numBlocks excBlkSz padding : Nat) (src : List Nat) : List Nat :=
  printAudioGo nc numBlocks excBlkSz padding numBlocks 0 src

/-- `ASTInfo::writeAST`: derive the layout, validate, fix up the loop
fields, and emit header plus audio body.  Source order kept: geometry and
`astSize` first; the output-filename `.ast` fix-ups and directory/file
creation are out-of-scope filesystem glue (`OutputCreateFailed` untyped
here); then `numBlocks == 0` → error; `excBlkSz` compensation;
loop-start reset; `customSampleRate == 0` → error (the check reads a
field the loop-start fix-up does not touch); loop-flag handling; header;
audio.  On success the result carries the derived layout, the state as
it is when `printHeader` runs, and every output byte in order. -/
def writeAST (st : ASTInfo) (src : List Nat) : Except Err (Layout × ASTInfo × List Nat) :=
  if computeNumBlocks st = 0 then .error .EmptyAudio
  else if st.customSampleRate = 0 then .error .ZeroSampleRate
  else
    let st2 := applyLoopFlag (fixLoopStart st)
    let L := computeLayout st
    .ok (L, st2,
      printHeader st2 L ++
      printAudio st2.numChannels L.numBlocks L.excBlkSz L.padding src)

/-- `ASTInfo::grabInfo` minus the filename glue: read the WAV, apply the
directives in order, then write the AST.  Any failure aborts before a
single output byte exists (the output file is only created inside
`writeAST`, after all validation). -/
def runProgram (f : List Nat) (args : List Arg) : Except Err (Layout × ASTInfo × List Nat) :=
  match getWAVData f with
  | .error e => .error e
  | .ok (st, src) =>
    match processArgs args st with
    | .error e => .error e
    | .ok st1 => writeAST st1 src

/-! ### Specification-side description of the audio body

These two definitions are written from the specification's words (§4.2
audio body emission), to be compared with `printAudio` above: per block,
a `"BLCK"` tag, the big-endian payload size, 24 zero bytes, then for each
channel `c` the block's samples taken from the interleaved source at
stride `numChannels` starting at offset `c`, each emitted as its
big-endian byte pair, and on the final block `padding` zero bytes after
each channel's samples. -/

/-- Spec-side audio body, block `x` onward; `rem` is the not-yet-consumed
interleaved sample stream.  `m` is the number of samples per channel in
the block; the indices of channel `c`'s samples are
`List.range' c m nc = [c, c + nc, ..., c + (m-1)*nc]`. -/
def specBlocksGo (nc numBlocks excBlkSz padding : Nat) : Nat → Nat → List Nat → List Nat
  | 0, _, _ => []
  | fuel + 1, x, rem =>
    if x < numBlocks then
      let isLast := x = numBlocks - 1
      let m := (if isLast then excBlkSz else blockSize) / 2
      let blockSamples := rem.take (m * nc)
      [66, 76, 67, 75] ++
      be32 (if isLast then excBlkSz + padding else blockSize) ++
      List.replicate 24 0 ++
      (List.range nc).flatMap (fun c =>
        (List.range' c m nc).flatMap (fun i => be16 (blockSamples.getD i 0)) ++
        (if isLast then List.replicate padding 0 else [])) ++
      specBlocksGo nc numBlocks excBlkSz padding fuel (x + 1) (rem.drop (m * nc))
    else []

/-- Spec-side audio body: channel-planar, big-endian, per-channel padding
on the final block. -/
def specBlocks (nc numBlocks excBlkSz padding : Nat) (src : List Nat) : List Nat :=
  specBlocksGo nc numBlocks excBlkSz padding numBlocks 0 src

/-! ### Concrete inputs used by witnesses and counterexamples -/

/-- A 112-byte RIFF/WAVE file whose `fmt ` chunk declares **17 channels**
(bytes 22–23), 16 bits per sample, PCM, 8000 Hz, with a 68-byte `data`
chunk: the concrete input exhibiting the missing channel-count abort. -/
def wav17 : List Nat :=
  strRIFF ++ [104, 0, 0, 0] ++ strWAVE ++
  strFMT ++ [16, 0, 0, 0] ++           -- fmt chunk, size 16
  [1, 0] ++                            -- PCM
  [17, 0] ++                           -- 17 channels (invalid per spec)
  [64, 31, 0, 0] ++                    -- 8000 Hz
  [0, 125, 0, 0] ++ [34, 0] ++         -- byte rate, block align
  [16, 0] ++                           -- 16 bits per sample
  strDATA ++ [68, 0, 0, 0] ++          -- data chunk, 68 bytes
  List.replicate 68 1

/-- Small mono source: 3 samples, 32000 Hz, 6 data bytes. -/
def exSt : ASTInfo := ⟨32000, 32000, 1, 3, 65535, 0, 6⟩

/-- Interleaved samples for `exSt`. -/
def exSrc : List Nat := [513, 2, 40000]

/-- The successful run on `exSt`/`exSrc` (used to instantiate theorems
with hypotheses at a concrete point). -/
def exRun : Layout × ASTInfo × List Nat :=
  (writeAST exSt exSrc).toOption.getD (⟨0, 0, 0, 0⟩, exSt, [])

/-! ### Byte-level lemmas -/

/-- Writing a byte-swapped 16-bit value little-endian emits exactly the
big-endian bytes of the original value. -/
theorem le16_bswap16 (v : Nat) : le16 (bswap16 v) = be16 v := by
  simp only [le16, bswap16, be16]
  have hm : v % 256 * 256 + v / 256 % 256 = 256 * (v % 256) + v / 256 % 256 := by ring
  rw [hm, Nat.mul_add_mod, Nat.mul_add_div (by norm_num : 0 < 256),
    Nat.div_eq_of_lt (Nat.mod_lt _ (by norm_num : 0 < 256)), Nat.add_zero,
    Nat.mod_mod_of_dvd _ dvd_rfl, Nat.mod_mod_of_dvd _ dvd_rfl]

/-- Writing a byte-swapped 32-bit value little-endian emits exactly the
big-endian bytes of the original value (truncated to 32 bits). -/
theorem le32_bswap32 (v : Nat) : le32 (bswap32 v) = be32 v := by
  have e0 : bswap32 v =
      256 * (256 * (256 * (v % 256) + v / 256 % 256) + v / 65536 % 256) + v / 16777216 % 256 := by
    simp only [bswap32, show (2 : Nat) ^ 8 = 256 by norm_num,
      show (2 : Nat) ^ 16 = 65536 by norm_num, show (2 : Nat) ^ 24 = 16777216 by norm_num]
    ring
  have hB : v / 256 % 256 < 256 := Nat.mod_lt _ (by norm_num)
  have hC : v / 65536 % 256 < 256 := Nat.mod_lt _ (by norm_num)
  have hD : v / 16777216 % 256 < 256 := Nat.mod_lt _ (by norm_num)
  have q1 : bswap32 v / 256 = 256 * (256 * (v % 256) + v / 256 % 256) + v / 65536 % 256 := by
    rw [e0, Nat.mul_add_div (by norm_num : 0 < 256), Nat.div_eq_of_lt hD, Nat.add_zero]
  have q2 : bswap32 v / 65536 = 256 * (v % 256) + v / 256 % 256 := by
    rw [show (65536 : Nat) = 256 * 256 by norm_num, ← Nat.div_div_eq_div_mul, q1,
      Nat.mul_add_div (by norm_num : 0 < 256), Nat.div_eq_of_lt hC, Nat.add_zero]
  have q3 : bswap32 v / 16777216 = v % 256 := by
    rw [show (16777216 : Nat) = 65536 * 256 by norm_num, ← Nat.div_div_eq_div_mul, q2,
      Nat.mul_add_div (by norm_num : 0 < 256), Nat.div_eq_of_lt hB, Nat.add_zero]
  have m0 : bswap32 v % 256 = v / 16777216 % 256 := by
    rw [e0, Nat.mul_add_mod, Nat.mod_mod_of_dvd _ dvd_rfl]
  have m1 : bswap32 v / 256 % 256 = v / 65536 % 256 := by
    rw [q1, Nat.mul_add_mod, Nat.mod_mod_of_dvd _ dvd_rfl]
  have m2 : bswap32 v / 65536 % 256 = v / 256 % 256 := by
    rw [q2, Nat.mul_add_mod, Nat.mod_mod_of_dvd _ dvd_rfl]
  have m3 : bswap32 v / 16777216 % 256 = v % 256 := by
    rw [q3, Nat.mod_mod_of_dvd _ dvd_rfl]
  simp only [le32, be32, show (2 : Nat) ^ 8 = 256 by norm_num,
    show (2 : Nat) ^ 16 = 65536 by norm_num, show (2 : Nat) ^ 24 = 16777216 by norm_num,
    m0, m1, m2, m3]

/-- Reading back a big-endian 32-bit field recovers the value. -/
theorem deBE32_be32 (v : Nat) (h : v < 2 ^ 32) : deBE32 (be32 v) = v := by
  simp only [deBE32, be32, List.getD_eq_getElem?_getD, List.getElem?_cons_zero,
    List.getElem?_cons_succ, Option.getD_some]
  have e1 := Nat.div_add_mod v 256
  have e2 := Nat.div_add_mod (v / 256) 256
  have e3 := Nat.div_add_mod (v / 65536) 256
  have d1 : v / 256 / 256 = v / 65536 := by rw [Nat.div_div_eq_div_mul]
  have d2 : v / 65536 / 256 = v / 16777216 := by rw [Nat.div_div_eq_div_mul]
  have hv : v / 16777216 < 256 := by
    apply Nat.div_lt_of_lt_mul
    calc v < 2 ^ 32 := h
    _ = 16777216 * 256 := by norm_num
  simp only [show (2 : Nat) ^ 8 = 256 by norm_num,
    show (2 : Nat) ^ 16 = 65536 by norm_num, show (2 : Nat) ^ 24 = 16777216 by norm_num]
  omega

/-- Indexing the byte-swapped buffer and emitting little-endian equals
emitting the original sample big-endian (out-of-range indices read 0 on
both sides). -/
theorem le16_getD_map_bswap16 (l : List Nat) (i : Nat) :
    le16 ((l.map bswap16).getD i 0) = be16 (l.getD i 0) := by
  rw [List.getD_eq_getElem?_getD, List.getD_eq_getElem?_getD, List.getElem?_map]
  cases h : l[i]? with
  | none => rfl
  | some v => simpa using le16_bswap16 v

/-! ### The strided channel loop -/

theorem strideIdx_shift (step : Nat) :
    ∀ fuel len z, strideIdx (len + step) step fuel (z + step) =
      (strideIdx len step fuel z).map (· + step) := by
  intro fuel
  induction fuel with
  | zero => intro len z; rfl
  | succ fuel ih =>
    intro len z
    simp only [strideIdx]
    by_cases h : z < len
    · rw [if_pos (by omega), if_pos h, List.map_cons]
      exact congrArg _ (ih len (z + step))
    · rw [if_neg (by omega), if_neg h, List.map_nil]

/-- The loop `for (z = y; z < m*step; z += step)` with `y < step` visits
exactly the indices `y, y + step, …, y + (m-1)*step`. -/
theorem strideIdx_range' :
    ∀ m fuel y step, y < step → m ≤ fuel →
      strideIdx (m * step) step fuel y = List.range' y m step := by
  intro m
  induction m with
  | zero =>
    intro fuel y step hy _
    cases fuel <;> simp [strideIdx]
  | succ m ih =>
    intro fuel y step hy hfuel
    match fuel, hfuel with
    | fuel + 1, hfuel =>
      have hstep : y < (m + 1) * step :=
        lt_of_lt_of_le hy (Nat.le_mul_of_pos_left step (Nat.succ_pos m))
      simp only [strideIdx, if_pos hstep, List.range'_succ]
      refine congrArg _ ?_
      have hmul : (m + 1) * step = m * step + step := Nat.succ_mul m step
      rw [hmul, strideIdx_shift step fuel (m * step) y,
        ih fuel y step hy (Nat.le_of_succ_le_succ hfuel)]
      have hf : (fun x => x + step) = (fun x : Nat => step + x) :=
        funext fun x => Nat.add_comm x step
      rw [hf, List.map_add_range', Nat.add_comm step y]

/-! ### flatMap helpers -/

theorem flatMap_length_const {α : Type} (l : List α) (g : α → List Nat) (k : Nat)
    (h : ∀ a, (g a).length = k) : (l.flatMap g).length = k * l.length := by
  induction l with
  | nil => simp
  | cons a l ih =>
    simp only [List.flatMap_cons, List.length_append, h, ih, List.length_cons,
      Nat.mul_succ]
    omega

theorem flatMap_le16_zero {α : Type} (l : List α) :
    l.flatMap (fun _ => le16 0) = List.replicate (2 * l.length) 0 := by
  induction l with
  | nil => simp
  | cons a l ih =>
    simp only [List.flatMap_cons, ih, List.length_cons, Nat.mul_succ]
    rfl

/-! ### The audio body is channel-planar big-endian (code = spec) -/

/-- One channel of one block: the strided write loop emits exactly the
channel's samples (offset `y`, stride `nc`), big-endian. -/
theorem channel_chunk (rem : List Nat) (m nc y : Nat) (hy : y < nc) :
    (strideIdx (m * nc) nc (m * nc) y).flatMap
        (fun z => le16 (((rem.take (m * nc)).map bswap16).getD z 0)) =
    (List.range' y m nc).flatMap (fun i => be16 ((rem.take (m * nc)).getD i 0)) := by
  rw [strideIdx_range' m (m * nc) y nc hy
    (Nat.le_mul_of_pos_right m (Nat.pos_of_ne_zero (by omega)))]
  exact List.flatMap_congr fun z _ => le16_getD_map_bswap16 _ _

/-- The per-channel final-block padding loop emits `padding` zero bytes. -/
theorem pad_chunk (padding : Nat) (hpad : 2 ∣ padding) :
    (strideIdx padding 2 padding 0).flatMap (fun _ => le16 0) = List.replicate padding 0 := by
  obtain ⟨p, rfl⟩ := hpad
  rw [Nat.mul_comm 2 p,
    strideIdx_range' p (p * 2) 0 2 (by norm_num) (Nat.le_mul_of_pos_right p (by norm_num)),
    flatMap_le16_zero, List.length_range', Nat.mul_comm 2 p]

/-- The six 4-byte zero writes of the block sub-header are 24 zero bytes. -/
theorem range6_le32_zero : (List.range 6).flatMap (fun _ => le32 0) = List.replicate 24 0 := by
  decide

/-- The emission loop of `printAudio` coincides with the spec-side
channel-planar description, block by block. -/
theorem printAudioGo_eq_spec (nc numBlocks excBlkSz padding : Nat)
    (hexc : 2 ∣ excBlkSz) (hpad : 2 ∣ padding) :
    ∀ fuel x rem, printAudioGo nc numBlocks excBlkSz padding fuel x rem =
      specBlocksGo nc numBlocks excBlkSz padding fuel x rem := by
  intro fuel
  induction fuel with
  | zero => intro x rem; rfl
  | succ fuel ih =>
    intro x rem
    simp only [printAudioGo, specBlocksGo]
    by_cases hx : x < numBlocks
    · simp only [if_pos hx]
      by_cases hl : x = numBlocks - 1
      · simp only [if_pos hl]
        obtain ⟨a, rfl⟩ := hexc
        have hlen : 2 * a * nc / 2 = a * nc := by
          rw [Nat.mul_assoc, Nat.mul_div_cancel_left _ (by norm_num : 0 < 2)]
        have hm : 2 * a / 2 = a := Nat.mul_div_cancel_left _ (by norm_num : 0 < 2)
        rw [hlen, hm, le32_bswap32, range6_le32_zero, ih]
        have hfm : (List.range nc).flatMap (fun y =>
            ((strideIdx (a * nc) nc (a * nc) y).flatMap fun z =>
              le16 ((List.map bswap16 (List.take (a * nc) rem)).getD z 0)) ++
              (strideIdx padding 2 padding 0).flatMap fun _ => le16 0) =
          (List.range nc).flatMap (fun c =>
            ((List.range' c a nc).flatMap fun i => be16 ((List.take (a * nc) rem).getD i 0)) ++
              List.replicate padding 0) :=
          List.flatMap_congr fun y hy =>
            congrArg₂ (· ++ ·) (channel_chunk rem a nc y (List.mem_range.mp hy))
              (pad_chunk padding hpad)
        rw [hfm]
      · simp only [if_neg hl, List.append_nil]
        have hlen : blockSize * nc / 2 = 5040 * nc := by
          rw [show blockSize = 2 * 5040 from rfl, Nat.mul_assoc,
            Nat.mul_div_cancel_left _ (by norm_num : 0 < 2)]
        have hm : blockSize / 2 = 5040 := rfl
        rw [hlen, hm, le32_bswap32, range6_le32_zero, ih]
        have hfm : (List.range nc).flatMap (fun y =>
            (strideIdx (5040 * nc) nc (5040 * nc) y).flatMap fun z =>
              le16 ((List.map bswap16 (List.take (5040 * nc) rem)).getD z 0)) =
          (List.range nc).flatMap (fun c =>
            (List.range' c 5040 nc).flatMap fun i =>
              be16 ((List.take (5040 * nc) rem).getD i 0)) :=
          List.flatMap_congr fun y hy => channel_chunk rem 5040 nc y (List.mem_range.mp hy)
        rw [hfm]
    · simp only [if_neg hx]

/-! ### Size of the audio body -/

theorem be16_length (v : Nat) : (be16 v).length = 2 := rfl

/-- Byte count of the audio body from block `x` on (`fuel` blocks remain):
32 sub-header bytes per block, `blockSize` payload bytes per channel for
every block but the last, and `excBlkSz + padding` bytes per channel for
the last. -/
theorem specBlocksGo_length (nc numBlocks excBlkSz padding : Nat) (hexc : 2 ∣ excBlkSz) :
    ∀ fuel x rem, x + fuel = numBlocks →
      (specBlocksGo nc numBlocks excBlkSz padding fuel x rem).length =
        if fuel = 0 then 0
        else fuel * 32 + (fuel - 1) * blockSize * nc + excBlkSz * nc + padding * nc := by
  intro fuel
  induction fuel with
  | zero => intro x rem _; rfl
  | succ fuel ih =>
    intro x rem hxf
    have hx : x < numBlocks := by omega
    simp only [specBlocksGo, if_pos hx]
    rcases Nat.eq_zero_or_pos fuel with hf | hf
    · subst hf
      have hl : x = numBlocks - 1 := by omega
      simp only [if_pos hl]
      obtain ⟨a, rfl⟩ := hexc
      have hm : 2 * a / 2 = a := Nat.mul_div_cancel_left _ (by norm_num : 0 < 2)
      rw [hm]
      rw [show specBlocksGo nc numBlocks (2 * a) padding 0 (x + 1) (rem.drop (a * nc)) = []
        from rfl]
      have hfun : ∀ c, (((List.range' c a nc).flatMap fun i =>
          be16 ((List.take (a * nc) rem).getD i 0)) ++ List.replicate padding 0).length =
          2 * a + padding := fun c => by
        rw [List.length_append, List.length_replicate,
          flatMap_length_const _ _ 2 (fun i => be16_length _), List.length_range']
      have hch := flatMap_length_const (List.range nc) _ _ hfun
      rw [List.length_range] at hch
      simp only [List.length_append, List.length_cons, List.length_nil, hch, be32,
        List.length_replicate]
      rw [if_neg (by omega : ¬(0 + 1 = 0))]
      have e1 : (2 * a + padding) * nc = 2 * (a * nc) + padding * nc := by ring
      have e2 : 2 * a * nc = 2 * (a * nc) := by ring
      rw [e1, e2]
      omega
    · have hl : ¬(x = numBlocks - 1) := by omega
      simp only [if_neg hl, List.append_nil]
      have hfun : ∀ c, ((List.range' c (blockSize / 2) nc).flatMap fun i =>
          be16 ((List.take (blockSize / 2 * nc) rem).getD i 0)).length =
          2 * (blockSize / 2) := fun c => by
        rw [flatMap_length_const _ _ 2 (fun i => be16_length _), List.length_range']
      have hch := flatMap_length_const (List.range nc) _ _ hfun
      rw [List.length_range] at hch
      have htail := ih (x + 1) (rem.drop (blockSize / 2 * nc)) (by omega)
      rw [if_neg (by omega)] at htail
      simp only [List.length_append, List.length_cons, List.length_nil, hch, be32,
        List.length_replicate, htail]
      rw [if_neg (by omega : ¬(fuel + 1 = 0))]
      obtain ⟨g, rfl⟩ : ∃ g, fuel = g + 1 := ⟨fuel - 1, by omega⟩
      simp only [Nat.add_sub_cancel, show blockSize / 2 = 5040 from rfl,
        show blockSize = 10080 from rfl]
      ring

/-! ### Inverting a successful `writeAST` -/

theorem writeAST_ok_inv {st : ASTInfo} {src : List Nat} {L : Layout} {st2 : ASTInfo}
    {bytes : List Nat} (h : writeAST st src = .ok (L, st2, bytes)) :
    computeNumBlocks st ≠ 0 ∧ st.customSampleRate ≠ 0 ∧ L = computeLayout st ∧
    st2 = applyLoopFlag (fixLoopStart st) ∧
    bytes = printHeader st2 L ++ printAudio st2.numChannels L.numBlocks L.excBlkSz L.padding src := by
  unfold writeAST at h
  by_cases h1 : computeNumBlocks st = 0
  · rw [if_pos h1] at h; exact absurd h (by simp)
  · rw [if_neg h1] at h
    by_cases h2 : st.customSampleRate = 0
    · rw [if_pos h2] at h; exact absurd h (by simp)
    · rw [if_neg h2] at h
      simp only [Except.ok.injEq, Prod.mk.injEq] at h
      obtain ⟨hL, hst, hb⟩ := h
      subst hL; subst hst
      exact ⟨h1, h2, rfl, rfl, hb.symm⟩

/-! ### Locating header fields -/

theorem printHeader_length (st : ASTInfo) (L : Layout) : (printHeader st L).length = 64 := by
  simp [printHeader, le16, le32, strSTRM]
  decide

theorem hdr_split20 (st : ASTInfo) (L : Layout) (tail : List Nat) :
    printHeader st L ++ tail =
      (strSTRM ++ le32 (bswap32 L.astSize) ++ le32 268435712 ++ le16 (bswap16 st.numChannels) ++
        le16 st.isLooped ++ le32 (bswap32 st.customSampleRate)) ++
      (le32 (bswap32 st.numSamples) ++
        (le32 (bswap32 st.loopStart) ++ le32 (bswap32 st.numSamples) ++
          le32 (bswap32 (if L.numBlocks = 1 then L.excBlkSz + L.padding else blockSize)) ++
          le32 0 ++ le32 127 ++ (List.range 5).flatMap (fun _ => le32 0) ++ tail)) := by
  simp [printHeader, List.append_assoc]

/-- The 4 bytes at offset 0x14 are big-endian `numSamples`. -/
theorem hdr_numSamples (st : ASTInfo) (L : Layout) (tail : List Nat) :
    ((printHeader st L ++ tail).drop 20).take 4 = be32 st.numSamples := by
  rw [hdr_split20, List.drop_left' (by simp [strSTRM, le32, le16]),
    ← le32_bswap32 st.numSamples]
  exact List.take_left' (by simp [le32])

/-- The 2 bytes at offset 0x0E are the raw (unswapped) loop flag. -/
theorem hdr_loopFlag (st : ASTInfo) (L : Layout) (tail : List Nat) :
    ((printHeader st L ++ tail).drop 14).take 2 = le16 st.isLooped := by
  rw [show printHeader st L ++ tail =
      (strSTRM ++ le32 (bswap32 L.astSize) ++ le32 268435712 ++ le16 (bswap16 st.numChannels)) ++
      (le16 st.isLooped ++
        (le32 (bswap32 st.customSampleRate) ++ le32 (bswap32 st.numSamples) ++
          le32 (bswap32 st.loopStart) ++ le32 (bswap32 st.numSamples) ++
          le32 (bswap32 (if L.numBlocks = 1 then L.excBlkSz + L.padding else blockSize)) ++
          le32 0 ++ le32 127 ++ (List.range 5).flatMap (fun _ => le32 0) ++ tail))
    from by simp [printHeader, List.append_assoc],
    List.drop_left' (by simp [strSTRM, le32, le16])]
  exact List.take_left' (by simp [le16])

/-- The 4 bytes at offset 0x18 are big-endian `loopStart`. -/
theorem hdr_loopStart (st : ASTInfo) (L : Layout) (tail : List Nat) :
    ((printHeader st L ++ tail).drop 24).take 4 = be32 st.loopStart := by
  rw [show printHeader st L ++ tail =
      (strSTRM ++ le32 (bswap32 L.astSize) ++ le32 268435712 ++ le16 (bswap16 st.numChannels) ++
        le16 st.isLooped ++ le32 (bswap32 st.customSampleRate) ++ le32 (bswap32 st.numSamples)) ++
      (le32 (bswap32 st.loopStart) ++
        (le32 (bswap32 st.numSamples) ++
          le32 (bswap32 (if L.numBlocks = 1 then L.excBlkSz + L.padding else blockSize)) ++
          le32 0 ++ le32 127 ++ (List.range 5).flatMap (fun _ => le32 0) ++ tail))
    from by simp [printHeader, List.append_assoc],
    List.drop_left' (by simp [strSTRM, le32, le16]), ← le32_bswap32 st.loopStart]
  exact List.take_left' (by simp [le32])

/-- The 4 bytes at offset 0x1C (loop end) are big-endian `numSamples`. -/
theorem hdr_loopEnd (st : ASTInfo) (L : Layout) (tail : List Nat) :
    ((printHeader st L ++ tail).drop 28).take 4 = be32 st.numSamples := by
  rw [show printHeader st L ++ tail =
      (strSTRM ++ le32 (bswap32 L.astSize) ++ le32 268435712 ++ le16 (bswap16 st.numChannels) ++
        le16 st.isLooped ++ le32 (bswap32 st.customSampleRate) ++ le32 (bswap32 st.numSamples) ++
        le32 (bswap32 st.loopStart)) ++
      (le32 (bswap32 st.numSamples) ++
        (le32 (bswap32 (if L.numBlocks = 1 then L.excBlkSz + L.padding else blockSize)) ++
          le32 0 ++ le32 127 ++ (List.range 5).flatMap (fun _ => le32 0) ++ tail))
    from by simp [printHeader, List.append_assoc],
    List.drop_left' (by simp [strSTRM, le32, le16]), ← le32_bswap32 st.numSamples]
  exact List.take_left' (by simp [le32])

/-- The 4 bytes at offset 0x20 are the big-endian first-block size. -/
theorem hdr_firstBlock (st : ASTInfo) (L : Layout) (tail : List Nat) :
    ((printHeader st L ++ tail).drop 32).take 4 =
      be32 (if L.numBlocks = 1 then L.excBlkSz + L.padding else blockSize) := by
  rw [show printHeader st L ++ tail =
      (strSTRM ++ le32 (bswap32 L.astSize) ++ le32 268435712 ++ le16 (bswap16 st.numChannels) ++
        le16 st.isLooped ++ le32 (bswap32 st.customSampleRate) ++ le32 (bswap32 st.numSamples) ++
        le32 (bswap32 st.loopStart) ++ le32 (bswap32 st.numSamples)) ++
      (le32 (bswap32 (if L.numBlocks = 1 then L.excBlkSz + L.padding else blockSize)) ++
        (le32 0 ++ le32 127 ++ (List.range 5).flatMap (fun _ => le32 0) ++ tail))
    from by simp [printHeader, List.append_assoc],
    List.drop_left' (by simp [strSTRM, le32, le16]),
    ← le32_bswap32 (if L.numBlocks = 1 then L.excBlkSz + L.padding else blockSize)]
  exact List.take_left' (by simp [le32])

/-- Dropping the 64 header bytes leaves the audio body. -/
theorem hdr_drop64 (st : ASTInfo) (L : Layout) (tail : List Nat) :
    (printHeader st L ++ tail).drop 64 = tail :=
  List.drop_left' (printHeader_length st L)

/-! ### Arithmetic facts about the derived layout -/

theorem computeExc_even (st : ASTInfo) : 2 ∣ computeExc st := by
  simp only [computeExc, computeExc0, blockSize, show (2 : Nat) ^ 32 = 4294967296 by norm_num]
  split <;> omega

theorem computePadding_even (st : ASTInfo) : 2 ∣ computePadding st := by
  simp only [computePadding, computeExc0, blockSize, show (2 : Nat) ^ 32 = 4294967296 by norm_num]
  split <;> omega

theorem computePadding_le (st : ASTInfo) : computePadding st ≤ 30 := by
  simp only [computePadding, computeExc0, blockSize, show (2 : Nat) ^ 32 = 4294967296 by norm_num]
  split <;> omega

theorem exc_add_padding_mod32 (st : ASTInfo) :
    (computeExc st + computePadding st) % 32 = 0 := by
  simp only [computeExc, computePadding, computeExc0, blockSize,
    show (2 : Nat) ^ 32 = 4294967296 by norm_num]
  split <;> split <;> omega

theorem ns2_mod_eq (st : ASTInfo) (h : st.numSamples * 2 < 2 ^ 32) :
    st.numSamples * 2 % 2 ^ 32 = st.numSamples * 2 := Nat.mod_eq_of_lt h

theorem computeNumBlocks_ceil (st : ASTInfo) (h : st.numSamples * 2 < 2 ^ 32) :
    computeNumBlocks st = (st.numSamples * 2 + 10079) / 10080 := by
  simp only [computeNumBlocks, computeExc0, blockSize, ns2_mod_eq st h]
  split <;> omega

theorem computeExc_eq (st : ASTInfo) (h : st.numSamples * 2 < 2 ^ 32) :
    computeExc st = if st.numSamples * 2 % 10080 = 0 then 10080
      else st.numSamples * 2 % 10080 := by
  simp only [computeExc, computeExc0, blockSize, ns2_mod_eq st h]

theorem blocks_exc_total (st : ASTInfo) (h : st.numSamples * 2 < 2 ^ 32)
    (hnb : computeNumBlocks st ≠ 0) :
    (computeNumBlocks st - 1) * blockSize + computeExc st = st.numSamples * 2 := by
  simp only [computeNumBlocks, computeExc, computeExc0, blockSize, ns2_mod_eq st h] at hnb ⊢
  have hd := Nat.div_add_mod (st.numSamples * 2) 10080
  by_cases hc : st.numSamples * 2 % 10080 = 0
  · rw [if_neg (by omega : ¬(st.numSamples * 2 % 10080 ≠ 0))] at hnb
    rw [if_neg (by omega : ¬(st.numSamples * 2 % 10080 ≠ 0)), if_pos hc]
    omega
  · rw [if_pos (by omega : st.numSamples * 2 % 10080 ≠ 0)] at hnb
    rw [if_pos (by omega : st.numSamples * 2 % 10080 ≠ 0), if_neg hc]
    omega

/-! ### Bounds on reachable states -/

theorem rd32_lt (f : List Nat) (p : Nat) : rd32 f p < 2 ^ 32 := by
  simp only [rd32]
  have h0 : f.getD p 0 % 256 < 256 := Nat.mod_lt _ (by norm_num)
  have h1 : f.getD (p + 1) 0 % 256 < 256 := Nat.mod_lt _ (by norm_num)
  have h2 : f.getD (p + 2) 0 % 256 < 256 := Nat.mod_lt _ (by norm_num)
  have h3 : f.getD (p + 3) 0 % 256 < 256 := Nat.mod_lt _ (by norm_num)
  simp only [show (2 : Nat) ^ 16 = 65536 by norm_num, show (2 : Nat) ^ 24 = 16777216 by norm_num,
    show (2 : Nat) ^ 32 = 4294967296 by norm_num]
  omega

/-- Any state produced by `getWAVData` satisfies
`numSamples * 2 ≤ wavSize < 2^32`: the sample count is a truncating
division of the 32-bit data size by `numChannels * 2`. -/
theorem getWAVData_bounds {f : List Nat} {st : ASTInfo} {src : List Nat}
    (h : getWAVData f = .ok (st, src)) :
    st.numSamples * 2 ≤ st.wavSize ∧ st.wavSize < 2 ^ 32 := by
  unfold getWAVData at h
  by_cases h1 : ¬(f.take 4 = strRIFF ∧ (f.drop 8).take 4 = strWAVE)
  · rw [if_pos h1] at h; exact absurd h (by simp)
  · rw [if_neg h1] at h
    cases hq : findChunk f strFMT f.length 12 with
    | none => rw [hq] at h; exact absurd h (by simp)
    | some q =>
      rw [hq] at h
      dsimp only at h
      by_cases h2 : rd16 f (q + 18) ≠ 16
      · rw [if_pos h2] at h; exact absurd h (by simp)
      · rw [if_neg h2] at h
        cases hr : findChunk f strDATA f.length 12 with
        | none => rw [hr] at h; exact absurd h (by simp)
        | some r =>
          rw [hr] at h
          dsimp only at h
          simp only [Except.ok.injEq, Prod.mk.injEq] at h
          obtain ⟨hst, _⟩ := h
          subst hst
          refine ⟨?_, rd32_lt f r⟩
          rcases Nat.eq_zero_or_pos (rd16 f (q + 6)) with hnc | hnc
          · simp [hnc]
          · calc rd32 f r / (rd16 f (q + 6) * 2) * 2
                ≤ rd32 f r / 2 * 2 := by
                  apply Nat.mul_le_mul_right
                  apply Nat.div_le_div_left _ (by norm_num)
                  omega
            _ ≤ rd32 f r := Nat.div_mul_le_self _ _

/-- `assignValue` never increases the sample count. -/
theorem assignValue_numSamples_le {a : Arg} {st st1 : ASTInfo}
    (h : assignValue a st = .ok st1) : st1.numSamples ≤ st.numSamples := by
  cases a <;> simp only [assignValue] at h
  case h => cases h; exact Nat.le_refl _
  case n => cases h; exact Nat.le_refl _
  case o => cases h; exact Nat.le_refl _
  case s v => cases h; exact Nat.le_refl _
  case t v => cases h; exact Nat.le_refl _
  case r v => cases h; exact Nat.le_refl _
  case e v =>
    by_cases h0 : v = 0
    · rw [if_pos h0] at h; exact absurd h (by simp)
    · rw [if_neg h0] at h
      simp only [Except.ok.injEq] at h
      subst h
      split
      · exact Nat.le_refl _
      · next hcond => dsimp only; omega
  case f t v =>
    by_cases ht : t = 0
    · rw [if_pos ht] at h; exact absurd h (by simp)
    · rw [if_neg ht] at h
      by_cases h0 : v = 0
      · rw [if_pos h0] at h; exact absurd h (by simp)
      · rw [if_neg h0] at h
        simp only [Except.ok.injEq] at h
        subst h
        split
        · exact Nat.le_refl _
        · next hcond => dsimp only; omega

/-- Option processing never increases the sample count. -/
theorem processArgs_numSamples_le {args : List Arg} :
    ∀ {st st1 : ASTInfo}, processArgs args st = .ok st1 → st1.numSamples ≤ st.numSamples := by
  induction args with
  | nil => intro st st1 h; simp only [processArgs, Except.ok.injEq] at h; subst h; exact Nat.le_refl _
  | cons a rest ih =>
    intro st st1 h
    simp only [processArgs] at h
    cases ha : assignValue a st with
    | error e => rw [ha] at h; exact absurd h (by simp)
    | ok stm => rw [ha] at h; exact Nat.le_trans (ih h) (assignValue_numSamples_le ha)

/-! ### Option processing and final-state facts -/

/-- With `-e 0` among the directives, option processing always fails. -/
theorem processArgs_mem_e0 {args : List Arg} :
    ∀ {st : ASTInfo}, Arg.e 0 ∈ args → ∃ e, processArgs args st = .error e := by
  induction args with
  | nil => intro st h; exact absurd h (List.not_mem_nil _)
  | cons a rest ih =>
    intro st h
    rcases List.mem_cons.mp h with h | h
    · subst h
      exact ⟨.ZeroEndSample, rfl⟩
    · simp only [processArgs]
      cases ha : assignValue a st with
      | error e => exact ⟨e, rfl⟩
      | ok st1 => exact ih h

theorem st2_numChannels (st : ASTInfo) :
    (applyLoopFlag (fixLoopStart st)).numChannels = st.numChannels := by
  simp only [applyLoopFlag, fixLoopStart]
  split <;> split <;> rfl

theorem st2_numSamples (st : ASTInfo) :
    (applyLoopFlag (fixLoopStart st)).numSamples = st.numSamples := by
  simp only [applyLoopFlag, fixLoopStart]
  split <;> split <;> rfl

theorem st2_isLooped (st : ASTInfo) :
    (applyLoopFlag (fixLoopStart st)).isLooped = st.isLooped := by
  simp only [applyLoopFlag, fixLoopStart]
  split <;> split <;> rfl

theorem st2_loopStart_of_unlooped (st : ASTInfo) (h : st.isLooped = 0) :
    (applyLoopFlag (fixLoopStart st)).loopStart = 0 := by
  have hfix : (fixLoopStart st).isLooped = 0 := by
    simp only [fixLoopStart]; split <;> exact h
  simp [applyLoopFlag, hfix]

theorem st2_loopStart_of_large (st : ASTInfo) (h : st.numSamples ≤ st.loopStart) :
    (applyLoopFlag (fixLoopStart st)).loopStart = 0 := by
  have hfix : fixLoopStart st = { st with loopStart := 0 } := by
    rw [fixLoopStart, if_pos h]
  rw [hfix, applyLoopFlag]
  split <;> rfl

/-! ### Claim theorems -/

theorem computeExc_le (st : ASTInfo) : computeExc st ≤ 10080 := by
  simp only [computeExc, computeExc0, blockSize]
  split <;> omega

theorem computeLayout_excBlkSz (st : ASTInfo) : (computeLayout st).excBlkSz = computeExc st := rfl
theorem computeLayout_numBlocks (st : ASTInfo) :
    (computeLayout st).numBlocks = computeNumBlocks st := rfl
theorem computeLayout_padding (st : ASTInfo) :
    (computeLayout st).padding = computePadding st := rfl
theorem computeLayout_astSize (st : ASTInfo) : (computeLayout st).astSize = computeAstSize st := rfl

/-- C1 (code bug): a WAV whose `fmt ` chunk declares 17 channels is not
rejected: `getWAVData` succeeds (the channel-count check prints its error
text but, unlike every other check, is missing `return 1`), and the whole
pipeline runs to completion, emitting a 17-channel AST output. -/
theorem C1_invalid_channel_count_not_rejected :
    getWAVData wav17 = .ok (⟨8000, 8000, 17, 2, 65535, 0, 68⟩, toSamples (wav17.drop 44)) ∧
    (runProgram wav17 []).toOption.isSome = true :=
  ⟨rfl, rfl⟩

/-- C2: on any successful `writeAST`, the derived block count is
`ceil(totalSamples*2 / 10080)` and the final-block payload is the
remainder, compensated to 10080 when the remainder is zero.  (The bound
`numSamples * 2 < 2^32` holds for every state reachable from
`getWAVData` and option processing: see `getWAVData_bounds` and
`processArgs_numSamples_le`.) -/
theorem C2_block_geometry (st : ASTInfo) (src : List Nat) (L : Layout) (st2 : ASTInfo)
    (bytes : List Nat) (h2n : st.numSamples * 2 < 2 ^ 32)
    (h : writeAST st src = .ok (L, st2, bytes)) :
    L.numBlocks = (st.numSamples * 2 + 10079) / 10080 ∧
    L.excBlkSz = (if st.numSamples * 2 % 10080 = 0 then 10080
      else st.numSamples * 2 % 10080) := by
  obtain ⟨hnb, _, hL, _, _⟩ := writeAST_ok_inv h
  subst hL
  exact ⟨computeNumBlocks_ceil st h2n, computeExc_eq st h2n⟩

theorem C2_block_geometry_witness :
    exRun.1.numBlocks = (exSt.numSamples * 2 + 10079) / 10080 ∧
    exRun.1.excBlkSz = (if exSt.numSamples * 2 % 10080 = 0 then 10080
      else exSt.numSamples * 2 % 10080) :=
  C2_block_geometry exSt exSrc exRun.1 exRun.2.1 exRun.2.2 (by decide) rfl

/-- C3: on any successful `writeAST`, the padding is even, at most 30,
and rounds the final block payload to a multiple of 32. -/
theorem C3_padding_rounds_final_block (st : ASTInfo) (src : List Nat) (L : Layout)
    (st2 : ASTInfo) (bytes : List Nat) (h : writeAST st src = .ok (L, st2, bytes)) :
    L.padding % 2 = 0 ∧ L.padding ≤ 30 ∧ (L.excBlkSz + L.padding) % 32 = 0 := by
  obtain ⟨_, _, hL, _, _⟩ := writeAST_ok_inv h
  subst hL
  simp only [computeLayout_padding, computeLayout_excBlkSz]
  refine ⟨?_, computePadding_le st, exc_add_padding_mod32 st⟩
  have := computePadding_even st
  omega

theorem C3_padding_witness :
    exRun.1.padding % 2 = 0 ∧ exRun.1.padding ≤ 30 ∧
    (exRun.1.excBlkSz + exRun.1.padding) % 32 = 0 :=
  C3_padding_rounds_final_block exSt exSrc exRun.1 exRun.2.1 exRun.2.2 rfl

/-- C4: the audio body written after the 64-byte header is exactly the
spec-side channel-planar layout: per block, each channel's samples taken
at stride `numChannels` from offset `c`, big-endian, with `padding` zero
bytes after each channel on the final block only. -/
theorem C4_channel_planar_body (st : ASTInfo) (src : List Nat) (L : Layout)
    (st2 : ASTInfo) (bytes : List Nat) (h : writeAST st src = .ok (L, st2, bytes)) :
    bytes.drop 64 = specBlocks st.numChannels L.numBlocks L.excBlkSz L.padding src := by
  obtain ⟨hnb, hcsr, hL, hst2, hb⟩ := writeAST_ok_inv h
  subst hst2 hb
  rw [hdr_drop64, st2_numChannels]
  subst hL
  unfold printAudio specBlocks
  exact printAudioGo_eq_spec _ _ _ _ (computeExc_even st) (computePadding_even st) _ 0 src

theorem C4_channel_planar_witness :
    exRun.2.2.drop 64 =
      specBlocks exSt.numChannels exRun.1.numBlocks exRun.1.excBlkSz exRun.1.padding exSrc :=
  C4_channel_planar_body exSt exSrc exRun.1 exRun.2.1 exRun.2.2 rfl

/-- Mono source with looping disabled (`-n`) after `-s 2`. -/
def exStN : ASTInfo := ⟨32000, 32000, 1, 3, 0, 2, 6⟩

/-- The run on `exStN`. -/
def exRunN : Layout × ASTInfo × List Nat :=
  (writeAST exStN exSrc).toOption.getD (⟨0, 0, 0, 0⟩, exStN, [])

/-- Mono source with a loop start (5) past the end (3 samples). -/
def exSt7 : ASTInfo := ⟨32000, 32000, 1, 3, 65535, 5, 6⟩

/-- The run on `exSt7`. -/
def exRun7 : Layout × ASTInfo × List Nat :=
  (writeAST exSt7 exSrc).toOption.getD (⟨0, 0, 0, 0⟩, exSt7, [])

/-- C5: in the written header, the big-endian word at 0x1C (loop end)
equals the word at 0x14 and decodes to the encoded sample count; the
word at 0x20 decodes to `excBlkSz + padding` for a single-block file and
to 10080 otherwise. -/
theorem C5_loopEnd_and_firstBlock (st : ASTInfo) (src : List Nat) (L : Layout)
    (st2 : ASTInfo) (bytes : List Nat) (hlt : st.numSamples < 2 ^ 32)
    (h : writeAST st src = .ok (L, st2, bytes)) :
    (bytes.drop 28).take 4 = (bytes.drop 20).take 4 ∧
    deBE32 ((bytes.drop 28).take 4) = st.numSamples ∧
    deBE32 ((bytes.drop 32).take 4) =
      (if L.numBlocks = 1 then L.excBlkSz + L.padding else 10080) := by
  obtain ⟨hnb, hcsr, hL, hst2, hb⟩ := writeAST_ok_inv h
  subst hst2 hb
  refine ⟨?_, ?_, ?_⟩
  · rw [hdr_loopEnd, hdr_numSamples]
  · rw [hdr_loopEnd, st2_numSamples]
    exact deBE32_be32 _ hlt
  · rw [hdr_firstBlock, deBE32_be32]
    · rfl
    · subst hL
      simp only [computeLayout_excBlkSz, computeLayout_padding]
      have h1 := computeExc_le st
      have h2 := computePadding_le st
      split
      · omega
      · decide
  
theorem C5_witness :
    (exRun.2.2.drop 28).take 4 = (exRun.2.2.drop 20).take 4 ∧
    deBE32 ((exRun.2.2.drop 28).take 4) = exSt.numSamples ∧
    deBE32 ((exRun.2.2.drop 32).take 4) =
      (if exRun.1.numBlocks = 1 then exRun.1.excBlkSz + exRun.1.padding else 10080) :=
  C5_loopEnd_and_firstBlock exSt exSrc exRun.1 exRun.2.1 exRun.2.2 (by decide) rfl

/-- C6: when looping was disabled (`-n`, `isLooped = 0`), the header's
loop flag bytes at 0x0E are `00 00` and the loop start word at 0x18 is
zero, whatever loop start had been set before. -/
theorem C6_unlooped_forces_zero_start (st : ASTInfo) (src : List Nat) (L : Layout)
    (st2 : ASTInfo) (bytes : List Nat) (hn : st.isLooped = 0)
    (h : writeAST st src = .ok (L, st2, bytes)) :
    (bytes.drop 14).take 2 = [0, 0] ∧ (bytes.drop 24).take 4 = [0, 0, 0, 0] := by
  obtain ⟨_, _, hL, hst2, hb⟩ := writeAST_ok_inv h
  subst hst2 hb
  constructor
  · rw [hdr_loopFlag, st2_isLooped, hn]; decide
  · rw [hdr_loopStart, st2_loopStart_of_unlooped st hn]; decide

theorem C6_witness :
    (exRunN.2.2.drop 14).take 2 = [0, 0] ∧ (exRunN.2.2.drop 24).take 4 = [0, 0, 0, 0] :=
  C6_unlooped_forces_zero_start exStN exSrc exRunN.1 exRunN.2.1 exRunN.2.2 (by decide) rfl

/-- C7: a loop start at or past the encoded sample count is silently
reset: the whole run behaves exactly as with loop start 0 (in particular
it is never a failure by itself), and any written header carries loop
start 0. -/
theorem C7_loop_start_reset (st : ASTInfo) (src : List Nat)
    (hge : st.numSamples ≤ st.loopStart) :
    writeAST st src = writeAST { st with loopStart := 0 } src ∧
    ∀ L st2 bytes, writeAST st src = .ok (L, st2, bytes) →
      (bytes.drop 24).take 4 = [0, 0, 0, 0] := by
  constructor
  · have hfix : fixLoopStart st = fixLoopStart { st with loopStart := 0 } := by
      rw [fixLoopStart, if_pos hge, fixLoopStart]
      split <;> rfl
    unfold writeAST
    rw [hfix]
    rfl
  · intro L st2 bytes h
    obtain ⟨_, _, hL, hst2, hb⟩ := writeAST_ok_inv h
    subst hst2 hb
    rw [hdr_loopStart, st2_loopStart_of_large st hge]
    decide

theorem C7_witness :
    writeAST exSt7 exSrc = writeAST { exSt7 with loopStart := 0 } exSrc ∧
    (exRun7.2.2.drop 24).take 4 = [0, 0, 0, 0] :=
  ⟨(C7_loop_start_reset exSt7 exSrc (by decide)).1,
    (C7_loop_start_reset exSt7 exSrc (by decide)).2 exRun7.1 exRun7.2.1 exRun7.2.2 rfl⟩

/-- Source state for the end-directive claims: mono, 100 samples. -/
def exSt8 : ASTInfo := ⟨32000, 32000, 1, 100, 65535, 0, 200⟩

/-- C8 (amended): an `-e`/`-f` directive with a nonzero requested count
whose **low 32 bits** exceed the source count succeeds and leaves the
sample count unchanged (only `wavSize` is recomputed).  For `-e` the
extra condition is automatic (`atoi` yields a 32-bit `int`); for `-f`
the derived 64-bit count can reach `2^32` and the condition is the
amendment (see `C8_truncation_cex`). -/
theorem C8_end_clamp (st : ASTInfo) (time v : Nat) (hv : v ≠ 0) (ht : time ≠ 0)
    (hgt : st.numSamples < v % 2 ^ 32) :
    assignValue (Arg.e v) st =
      .ok { st with wavSize := st.numSamples * 2 * st.numChannels % 2 ^ 32 } ∧
    assignValue (Arg.f time v) st =
      .ok { st with wavSize := st.numSamples * 2 * st.numChannels % 2 ^ 32 } ∧
    ({ st with wavSize := st.numSamples * 2 * st.numChannels % 2 ^ 32 } : ASTInfo).numSamples
      = st.numSamples := by
  refine ⟨?_, ?_, rfl⟩
  · simp only [assignValue, if_neg hv, if_pos hgt]
  · simp only [assignValue, if_neg ht, if_neg hv, if_pos hgt]

theorem C8_end_clamp_witness :
    assignValue (Arg.e 150) exSt8 =
      .ok { exSt8 with wavSize := exSt8.numSamples * 2 * exSt8.numChannels % 2 ^ 32 } ∧
    assignValue (Arg.f 7 150) exSt8 =
      .ok { exSt8 with wavSize := exSt8.numSamples * 2 * exSt8.numChannels % 2 ^ 32 } ∧
    ({ exSt8 with wavSize := exSt8.numSamples * 2 * exSt8.numChannels % 2 ^ 32 } : ASTInfo).numSamples
      = exSt8.numSamples :=
  C8_end_clamp exSt8 7 150 (by decide) (by decide) (by decide)

/-- C8 counterexample to the claim as stated: the `-f` directive derives
the 64-bit count `2^32` (reachable with `time = 2000000` µs at sample
rate `2^31`), which is nonzero and greater than the source's 100
samples; option processing succeeds, yet the comparison truncates the
count to `(unsigned int)` 0, so `numSamples` becomes 0, not 100. -/
theorem C8_truncation_cex :
    (4294967296 : Nat) ≠ 0 ∧ exSt8.numSamples < 4294967296 ∧
    assignValue (Arg.f 2000000 4294967296) exSt8 =
      .ok ⟨32000, 32000, 1, 0, 65535, 0, 0⟩ ∧
    (⟨32000, 32000, 1, 0, 65535, 0, 0⟩ : ASTInfo).numSamples ≠ exSt8.numSamples :=
  ⟨by decide, by decide, rfl, by decide⟩

/-- C9: whenever `-e 0` is among the directives, the whole run fails
before `writeAST` is reached: no output value (and so no output byte)
exists. -/
theorem C9_e_zero_aborts (f : List Nat) (args : List Arg) (hmem : Arg.e 0 ∈ args) :
    (runProgram f args).toOption = none := by
  unfold runProgram
  cases hw : getWAVData f with
  | error e => rfl
  | ok p =>
    obtain ⟨st, src⟩ := p
    obtain ⟨e, he⟩ := @processArgs_mem_e0 args st hmem
    dsimp only
    rw [he]
    rfl

theorem C9_e_zero_witness : (runProgram wav17 [Arg.e 0]).toOption = none :=
  C9_e_zero_aborts wav17 [Arg.e 0] (by decide)

/-- A mono source whose declared `data` size is 4294957440 bytes (just
under 4 GiB): `numSamples = 2147478720`, and
`wavSize + numBlocks*32 + padding*numChannels` exceeds `2^32`. -/
def exStBig : ASTInfo := ⟨32000, 32000, 1, 2147478720, 65535, 0, 4294957440⟩

/-- The run on `exStBig` (the sample stream content is irrelevant to the
byte count: `fwrite` emits full blocks regardless of `fread` shortfall). -/
def exRunBig : Layout × ASTInfo × List Nat :=
  (writeAST exStBig []).toOption.getD (⟨0, 0, 0, 0⟩, exStBig, [])

/-- C10 (amended): on every successful `writeAST`, the body bytes
actually written always count
`numBlocks*32 + totalSamples*2*numChannels + padding*numChannels`
(wrapping runs included); and whenever the 32-bit `astSize` addition
`wavSize + numBlocks*32 + padding*numChannels` did not wrap, that count
matches the header's `astSize` field exactly when `wavSize` equals
`totalSamples*2*numChannels`. -/
theorem C10_body_size (st : ASTInfo) (src : List Nat) (L : Layout) (st2 : ASTInfo)
    (bytes : List Nat) (h2n : st.numSamples * 2 < 2 ^ 32)
    (h : writeAST st src = .ok (L, st2, bytes)) :
    (bytes.drop 64).length =
      L.numBlocks * 32 + st.numSamples * 2 * st.numChannels + L.padding * st.numChannels ∧
    (st.wavSize + L.numBlocks * 32 + L.padding * st.numChannels < 2 ^ 32 →
      ((bytes.drop 64).length = L.astSize ↔
        st.wavSize = st.numSamples * 2 * st.numChannels)) := by
  obtain ⟨hnb, hcsr, hL, hst2, hb⟩ := writeAST_ok_inv h
  subst hst2 hb
  rw [hdr_drop64, st2_numChannels]
  subst hL
  simp only [computeLayout_numBlocks, computeLayout_excBlkSz, computeLayout_padding,
    computeLayout_astSize]
  rw [printAudio, printAudioGo_eq_spec _ _ _ _ (computeExc_even st) (computePadding_even st),
    specBlocksGo_length st.numChannels (computeNumBlocks st) (computeExc st)
      (computePadding st) (computeExc_even st) (computeNumBlocks st) 0 src (Nat.zero_add _),
    if_neg hnb]
  have htot := blocks_exc_total st h2n hnb
  have hcA : (computeNumBlocks st - 1) * blockSize * st.numChannels +
      computeExc st * st.numChannels = st.numSamples * 2 * st.numChannels := by
    calc (computeNumBlocks st - 1) * blockSize * st.numChannels +
        computeExc st * st.numChannels
        = ((computeNumBlocks st - 1) * blockSize + computeExc st) * st.numChannels := by ring
      _ = st.numSamples * 2 * st.numChannels := by rw [htot]
  constructor
  · omega
  · intro hov
    rw [computeAstSize, Nat.mod_eq_of_lt hov]
    omega

theorem C10_body_size_witness :
    ((exRun.2.2.drop 64).length =
      exRun.1.numBlocks * 32 + exSt.numSamples * 2 * exSt.numChannels +
        exRun.1.padding * exSt.numChannels ∧
    ((exRun.2.2.drop 64).length = exRun.1.astSize ↔
      exSt.wavSize = exSt.numSamples * 2 * exSt.numChannels)) ∧
    (exRunBig.2.2.drop 64).length =
      exRunBig.1.numBlocks * 32 + exStBig.numSamples * 2 * exStBig.numChannels +
        exRunBig.1.padding * exStBig.numChannels :=
  ⟨⟨(C10_body_size exSt exSrc exRun.1 exRun.2.1 exRun.2.2 (by decide) rfl).1,
    (C10_body_size exSt exSrc exRun.1 exRun.2.1 exRun.2.2 (by decide) rfl).2 (by decide)⟩,
    (C10_body_size exStBig [] exRunBig.1 exRunBig.2.1 exRunBig.2.2 (by decide) rfl).1⟩

/-- C10 counterexample to the claim as stated: for `exStBig` the data
size is exactly `totalSamples*2*numChannels`, the body really counts
`numBlocks*32 + totalSamples*2*numChannels + padding*numChannels`
(= 4308592256) bytes, yet the header's 32-bit `astSize` field wrapped to
13624960, so the claimed equivalence fails in its forward direction. -/
theorem C10_overflow_cex :
    exStBig.wavSize = exStBig.numSamples * 2 * exStBig.numChannels ∧
    (exRunBig.2.2.drop 64).length =
      exRunBig.1.numBlocks * 32 + exStBig.numSamples * 2 * exStBig.numChannels +
        exRunBig.1.padding * exStBig.numChannels ∧
    (exRunBig.2.2.drop 64).length ≠ exRunBig.1.astSize := by
  have h : writeAST exStBig [] = .ok (exRunBig.1, exRunBig.2.1, exRunBig.2.2) := rfl
  obtain ⟨hnb, hcsr, hL, hst2, hb⟩ := writeAST_ok_inv h
  have hL1 : exRunBig.1 = (⟨480, 426088, 0, 13624960⟩ : Layout) := by decide
  have hnc : exRunBig.2.1.numChannels = 1 := rfl
  have hlen : (exRunBig.2.2.drop 64).length = 4308592256 := by
    rw [hb, hdr_drop64, hnc, hL1]
    dsimp only
    rw [printAudio, printAudioGo_eq_spec 1 426088 480 0 (by decide) (by decide),
      specBlocksGo_length 1 426088 480 0 (by decide) 426088 0 [] rfl,
      if_neg (by decide : ¬(426088 = 0))]
    norm_num [blockSize]
  refine ⟨by decide, ?_, ?_⟩
  · rw [hlen, hL1]; decide
  · rw [hlen, hL1]; decide

end ASTCreate
